import Mathlib

/-!
Verification development for the bot-mail-proposal repository.

The repository is a Next.js frontend plus a FastAPI backend sketch.  The
frontend chat interface (`ChatInterface`, `handleSendMessage`) is embedded
directly from the TypeScript source.  The backend proposal-lifecycle logic
(status state machine, version history, extraction and delivery adapters) is
present in the repository only as a schema declaration (`schema.json`) and
frontend API callers, so those operations are modelled from the spec
(sections 3, 4.1 to 4.4, 5) as indicated on each definition.
-/

namespace BotMail

/-! ## Chat interface (embedded from the frontend ChatInterface component) -/

/-- One chat message, as in the frontend MessageType. -/
structure MessageType where
  id : String
  content : String
  role : String
  timestamp : String
deriving DecidableEq, Repr

/-- JavaScript `String.prototype.toLowerCase` restricted to ASCII, as applied
by the chat handler. -/
def jsToLower (s : String) : String := ⟨s.toList.map Char.toLower⟩

/-- Naive substring search: does `needle` occur contiguously in the list? -/
def subSearch (needle : List Char) : List Char → Bool
  | [] => needle.isEmpty
  | c :: t => needle.isPrefixOf (c :: t) || subSearch needle t

/-- JavaScript `hay.includes(sub)`: substring containment. -/
def jsIncludes (hay sub : String) : Bool := subSearch sub.toList hay.toList

/-- Whitespace characters stripped by `String.prototype.trim`. -/
def isWsChar (c : Char) : Bool := c = ' ' || c = '\t' || c = '\n' || c = '\r'

/-- JavaScript `String.prototype.trim`: strip whitespace from both ends. -/
def jsTrim (s : String) : String :=
  ⟨((s.toList.dropWhile isWsChar).reverse.dropWhile isWsChar).reverse⟩

/-- Canned reply for greetings ("hello" / "hi"). -/
def greetingResponse : String := "Hello there! How can I assist you today?"

/-- Canned reply for "help". -/
def helpResponse : String :=
  "I can help you with document analysis, data queries using SQL, and language translation. What would you like to know?"

/-- Canned reply for "feature" / "can you". -/
def featureResponse : String :=
  "I can answer questions about your documents, provide data insights using SQL Agent, and translate between multiple languages. What would you like to try?"

/-- Canned reply for "translate". -/
def translateResponse : String :=
  "I can translate text between multiple languages. Just tell me what you need translated and to which language."

/-- Fallback reply when no keyword matches. -/
def defaultResponse : String :=
  "I\x27m analyzing your request. For best results, you can upload documents for me to analyze, ask data-related questions, or request translations."

/-- The simulated response selection inside `handleSendMessage`: an if/else-if
chain over lowercase keyword containment, embedded from the TypeScript. -/
def responseFor (content : String) : String :=
  if jsIncludes (jsToLower content) "hello" || jsIncludes (jsToLower content) "hi" then
    greetingResponse
  else if jsIncludes (jsToLower content) "help" then
    helpResponse
  else if jsIncludes (jsToLower content) "feature" || jsIncludes (jsToLower content) "can you" then
    featureResponse
  else if jsIncludes (jsToLower content) "translate" then
    translateResponse
  else
    defaultResponse

/-- The `handleSendMessage` handler of the chat interface: returns early on
empty/whitespace-only input, otherwise appends the user message and then the
simulated assistant response to the message list.  `now` stands for
`Date.now()` and `ts` for the ISO timestamp taken at send time. -/
def handleSendMessage (messages : List MessageType) (content : String)
    (now : Nat) (ts : String) : List MessageType :=
  if jsTrim content = "" then messages
  else
    let userMessage : MessageType := ⟨toString now, content, "user", ts⟩
    let assistantMessage : MessageType :=
      ⟨toString (now + 1), responseFor content, "assistant", ts⟩
    (messages ++ [userMessage]) ++ [assistantMessage]

/-! ## Proposal lifecycle data model

Types follow `src/backend/schema.json` and the frontend type declarations
(`Proposal`, `ProposalVersion`, `ApprovalHistory`, `Email`).  Dates are
modelled as natural numbers, ObjectId references as strings. -/

/-- The `emails.processing_status` enum from the schema. -/
inductive ProcStatus
  | pending | processing | completed | failed
deriving DecidableEq, Repr

/-- The `proposals.current_status` enum from the schema. -/
inductive Status
  | draft | under_review | approved | rejected | sent
deriving DecidableEq, Repr

/-- Reviewer decision values from the frontend `ApprovalHistory` type. -/
inductive Decision
  | approved | rejected | requested_changes
deriving DecidableEq, Repr

/-- The `extracted_data.priority` enum from the schema. -/
inductive Priority
  | low | medium | high
deriving DecidableEq, Repr

/-- The `sent_communications.delivery_status.status` enum from the schema. -/
inductive DeliveryState
  | queued | sent | delivered | failed
deriving DecidableEq, Repr

/-- One element of `proposals.proposal_versions`. -/
structure ProposalVersion where
  html_content : String
  pdf_path : Option String
  version : Nat
  created_at : Nat
  modified_by : Option String
deriving DecidableEq, Repr

/-- One element of `proposals.approval_history`. -/
structure ApprovalEntry where
  user_id : String
  decision : Decision
  timestamp : Nat
  comments : Option String
deriving DecidableEq, Repr

/-- The `proposals.timestamps` map. -/
structure Timestamps where
  created_at : Nat
  updated_at : Nat
  sent_at : Option Nat
deriving DecidableEq, Repr

/-- The `proposals.extracted_data` object from the schema. -/
structure ExtractedData where
  project_name : String
  description : String
  key_features : List String
  deadline : Option Nat
  budget : Option Nat
  client_requirements : Option String
  priority : Priority
deriving DecidableEq, Repr

/-- A proposal document from the `proposals` collection. -/
structure Proposal where
  email_id : String
  extracted_data : ExtractedData
  proposal_versions : List ProposalVersion
  current_status : Status
  approval_history : List ApprovalEntry
  timestamps : Timestamps
deriving DecidableEq, Repr

/-- An email document from the `emails` collection. -/
structure Email where
  email_id : String
  sender : String
  subject : String
  body : String
  attachments : List String
  received_at : Nat
  processing_status : ProcStatus
  error_log : Option String
deriving DecidableEq, Repr

/-- The `sent_communications.delivery_status` object. -/
structure DeliveryStat where
  status : DeliveryState
  error : Option String
  retries : Nat
deriving DecidableEq, Repr

/-- A record from the `sent_communications` collection (delivery-relevant
fields). -/
structure SentCommunication where
  proposal_id : String
  recipients : List String
  delivery_status : DeliveryStat
deriving DecidableEq, Repr

/-- Structured errors of the spec taxonomy (section 7) raised by the
lifecycle operations. -/
inductive LifecycleError
  | invalidTransition (current requested : Status)
  | conflict
  | notFound
deriving DecidableEq, Repr

/-! ## Proposal status state machine

Modelled from the spec: the backend service that implements the section 4.1
state machine is not in `src/`; `schema.json` declares only the enum and the
frontend only issues HTTP calls.  Each definition below follows the spec
text it cites. -/

/-- Modelled from the spec: the transition edges of section 4.1
(draft to under_review, under_review to approved/rejected, approved to
sent). -/
def allowedEdge : Status → Status → Bool
  | .draft, .under_review => true
  | .under_review, .approved => true
  | .under_review, .rejected => true
  | .approved, .sent => true
  | _, _ => false

/-- Modelled from the spec: target status of a recorded decision; a
`requested_changes` decision returns the proposal to `draft` (section
4.1). -/
def decisionTarget : Decision → Status
  | .approved => .approved
  | .rejected => .rejected
  | .requested_changes => .draft

/-- Modelled from the spec: next version number is 1 plus the maximum
existing version number, 0 if the list is empty (section 4.2). -/
def nextVersionNumber (vs : List ProposalVersion) : Nat :=
  1 + (vs.map (·.version)).foldr max 0

/-- Does some version carry a rendered (pdf) file? -/
def hasRenderedVersion (p : Proposal) : Bool :=
  p.proposal_versions.any (fun v => v.pdf_path.isSome)

/-- The lifecycle operations a proposal can undergo after creation. -/
inductive Op
  | submitForReview (ts : Nat)
  | recordDecision (u : String) (d : Decision) (ts : Nat) (c : Option String)
  | addVersion (content : String) (pdf : Option String) (ts : Nat)
      (ed : Option String)
  | send (ts : Nat)
deriving DecidableEq, Repr

/-- Modelled from the spec: applying one lifecycle operation to a proposal
(sections 4.1 and 4.2).  Transitions are allowed only along the section 4.1
edges; a disallowed source state yields `invalidTransition` naming the
current and requested states; a decision appends one approval-history
entry; `addVersion` appends one version numbered by `nextVersionNumber`;
`send` requires an `approved` status and a rendered version. -/
def applyOp : Op → Proposal → Except LifecycleError Proposal
  | .submitForReview ts, p =>
      if p.current_status = .draft then
        .ok { p with current_status := .under_review,
                     timestamps := { p.timestamps with updated_at := ts } }
      else .error (.invalidTransition p.current_status .under_review)
  | .recordDecision u d ts c, p =>
      if p.current_status = .under_review then
        .ok { p with current_status := decisionTarget d,
                     approval_history := p.approval_history ++ [⟨u, d, ts, c⟩],
                     timestamps := { p.timestamps with updated_at := ts } }
      else .error (.invalidTransition p.current_status (decisionTarget d))
  | .addVersion content pdf ts ed, p =>
      .ok { p with proposal_versions := p.proposal_versions ++
                     [⟨content, pdf, nextVersionNumber p.proposal_versions, ts, ed⟩],
                   timestamps := { p.timestamps with updated_at := ts } }
  | .send ts, p =>
      if p.current_status = .approved ∧ hasRenderedVersion p then
        .ok { p with current_status := .sent,
                     timestamps := ⟨p.timestamps.created_at, ts, some ts⟩ }
      else .error (.invalidTransition p.current_status .sent)

/-- One lifecycle step between proposal states. -/
def StepRel (p q : Proposal) : Prop := ∃ op, applyOp op p = .ok q

/-- Reachability along lifecycle steps. -/
def Reachable (p q : Proposal) : Prop := Relation.ReflTransGen StepRel p q

/-- A freshly created proposal: `draft`, no versions, no history. -/
def InitialProposal (p : Proposal) : Prop :=
  p.current_status = .draft ∧ p.proposal_versions = [] ∧
    p.approval_history = []

/-! ## Store layer -/

/-- The `proposals` collection, keyed by id. -/
def Store := List (String × Proposal)

/-- Look a proposal up by id. -/
def lookupProposal (s : Store) (pid : String) : Option Proposal :=
  (s.find? (fun e => e.1 = pid)).map (·.2)

/-- Replace the proposal stored under `pid`. -/
def updateProposal (s : Store) (pid : String) (p : Proposal) : Store :=
  s.map (fun e => if e.1 = pid then (pid, p) else e)

/-- Modelled from the spec: a bare status-transition request against the
store (section 4.1 failure semantics).  On a disallowed edge the store is
returned unchanged together with an `invalidTransition` error naming the
current and requested states. -/
def storeRequestTransition (s : Store) (pid : String) (target : Status)
    (ts : Nat) : Store × Option LifecycleError :=
  match lookupProposal s pid with
  | none => (s, some .notFound)
  | some p =>
      if allowedEdge p.current_status target then
        (updateProposal s pid
          { p with current_status := target,
                   timestamps := { p.timestamps with updated_at := ts } },
         none)
      else (s, some (.invalidTransition p.current_status target))

/-! ## Optimistic concurrency (compare-and-swap on the status field) -/

/-- Modelled from the spec: the status write is conditioned on the
previously read status; if the stored status changed since it was read the
write fails with `conflict` (sections 4.1 and 5). -/
def casWrite (stored expected new : Status) : Except LifecycleError Status :=
  if stored = expected then .ok new else .error .conflict

/-- Modelled from the spec: two reviewers race to decide the same proposal.
Both read the stored status `s0` before either writes; then the writes are
applied in order through `casWrite`.  Returns each writer's outcome. -/
def raceApprovals (s0 : Status) (d1 d2 : Decision) :
    Except LifecycleError Status × Except LifecycleError Status :=
  let r1 := casWrite s0 s0 (decisionTarget d1)
  let s1 := match r1 with | .ok s => s | .error _ => s0
  let r2 := casWrite s1 s0 (decisionTarget d2)
  (r1, r2)

/-! ## Extraction adapter (section 4.3) -/

/-- Modelled from the spec: the proposal draft template populated with the
extracted fields. -/
def renderTemplate (d : ExtractedData) : String :=
  "Proposal for " ++ d.project_name ++ ": " ++ d.description

/-- Modelled from the spec: the proposal created for a processed email —
status `draft`, version 1 built from the template over the extracted
fields, empty approval history (section 4.3). -/
def newProposal (e : Email) (d : ExtractedData) (ts : Nat) : Proposal :=
  { email_id := e.email_id
    extracted_data := d
    proposal_versions := [⟨renderTemplate d, none, 1, ts, none⟩]
    current_status := .draft
    approval_history := []
    timestamps := ⟨ts, ts, none⟩ }

/-- Modelled from the spec: the extraction step over one email (section
4.3).  `extract` is the opaque adapter.  On failure the email is marked
`failed` with an error-log entry and no proposal is created; on success the
email is marked `completed` and exactly one new draft proposal is
appended. -/
def processEmail (extract : String → Except String ExtractedData)
    (e : Email) (ps : List Proposal) (ts : Nat) : Email × List Proposal :=
  match extract e.body with
  | .error err =>
      ({ e with processing_status := .failed, error_log := some err }, ps)
  | .ok d =>
      ({ e with processing_status := .completed }, ps ++ [newProposal e d ts])

/-! ## Delivery adapter (section 4.4) -/

/-- Modelled from the spec: the `SentCommunication` record created in
`queued` state before the delivery call (section 4.4). -/
def initialComm (pid : String) (rcpts : List String) : SentCommunication :=
  ⟨pid, rcpts, ⟨.queued, none, 0⟩⟩

/-- Modelled from the spec: record one delivery attempt (section 4.4).
`outcome` is `none` on success, `some err` on failure.  On failure
`retries` increments and the record stays `queued` until the configured
ceiling is reached, after which it becomes `failed` permanently; a record
no longer `queued` is not touched. -/
def recordAttempt (ceiling : Nat) (c : SentCommunication)
    (outcome : Option String) : SentCommunication :=
  if c.delivery_status.status ≠ .queued then c
  else
    match outcome with
    | none => { c with delivery_status := { c.delivery_status with status := .sent } }
    | some err =>
        let r := c.delivery_status.retries + 1
        if r < ceiling then
          { c with delivery_status := ⟨.queued, some err, r⟩ }
        else
          { c with delivery_status := ⟨.failed, some err, r⟩ }

/-- Run the delivery loop over a sequence of attempt outcomes. -/
def runDelivery (ceiling : Nat) (pid : String) (rcpts : List String)
    (outcomes : List (Option String)) : SentCommunication :=
  outcomes.foldl (recordAttempt ceiling) (initialComm pid rcpts)

/-- Modelled from the spec: the proposal transitions to `sent` only when
the delivery outcome is `sent`; otherwise it is left as is (sections 4.1
and 4.4). -/
def finalizeSend (p : Proposal) (c : SentCommunication) (ts : Nat) : Proposal :=
  if c.delivery_status.status = .sent ∧ p.current_status = .approved then
    { p with current_status := .sent,
             timestamps := ⟨p.timestamps.created_at, ts, some ts⟩ }
  else p

/-! ## Concrete sample values (used by witnesses) -/

/-- Sample extracted data for the section 8 scenario. -/
def sampleData : ExtractedData :=
  ⟨"Website redesign", "We need a website redesign by June", ["redesign"],
    none, none, none, .medium⟩

/-- Sample extraction adapter: fails on an empty body, else returns
`sampleData`. -/
def sampleExtract : String → Except String ExtractedData :=
  fun b => if b = "" then .error "empty body" else .ok sampleData

/-- Sample ingested email. -/
def sampleEmail : Email :=
  ⟨"e1", "client@example.com", "Website redesign",
    "We need a website redesign by June", [], 0, .pending, none⟩

/-- A freshly created proposal with no versions yet. -/
def emptyProposal : Proposal :=
  ⟨"e1", sampleData, [], .draft, [], ⟨0, 0, none⟩⟩

/-- The state of `emptyProposal` after a version with a rendered pdf was appended. -/
def versionedProposal : Proposal :=
  ⟨"e1", sampleData, [⟨"v1", some "out.pdf", 1, 1, none⟩], .draft, [],
    ⟨0, 1, none⟩⟩

/-- The state of `versionedProposal` once submitted for review. -/
def reviewProposal : Proposal :=
  ⟨"e1", sampleData, [⟨"v1", some "out.pdf", 1, 1, none⟩], .under_review, [],
    ⟨0, 2, none⟩⟩

/-- The state of `reviewProposal` after an approving decision. -/
def approvedProposal : Proposal :=
  ⟨"e1", sampleData, [⟨"v1", some "out.pdf", 1, 1, none⟩], .approved,
    [⟨"u1", .approved, 3, none⟩], ⟨0, 3, none⟩⟩

/-- The state of `approvedProposal` after a successful send. -/
def sentProposal : Proposal :=
  ⟨"e1", sampleData, [⟨"v1", some "out.pdf", 1, 1, none⟩], .sent,
    [⟨"u1", .approved, 3, none⟩], ⟨0, 4, some 4⟩⟩

/-! ## Helper lemmas -/

/-- Folding `max` over a list bounded by the seed returns the seed. -/
lemma foldr_max_eq_of_le {l : List Nat} {b : Nat} (h : ∀ x ∈ l, x ≤ b) :
    l.foldr max b = b := by
  induction l with
  | nil => rfl
  | cons a t ih =>
      simp only [List.foldr_cons]
      rw [ih (fun x hx => h x (List.mem_cons_of_mem _ hx))]
      exact Nat.max_eq_right (h a (List.mem_cons_self _ _))

/-- The maximum of `[1, …, n]` is `n`. -/
lemma foldr_max_range' (n : Nat) : (List.range' 1 n).foldr max 0 = n := by
  induction n with
  | zero => rfl
  | succ n ih =>
      rw [List.range'_1_concat, List.foldr_append]
      simp only [List.foldr_cons, List.foldr_nil]
      rw [Nat.max_eq_left (Nat.zero_le _)]
      have hb : List.foldr max (1 + n) (List.range' 1 n) = 1 + n :=
        foldr_max_eq_of_le (fun x hx => by
          have h2 := (List.mem_range'_1.mp hx).2
          omega)
      rw [hb]
      omega

/-- Every successful operation either leaves the version list unchanged or
appends exactly one version carrying the next version number. -/
lemma applyOp_versions (op : Op) (p q : Proposal)
    (h : applyOp op p = .ok q) :
    q.proposal_versions = p.proposal_versions ∨
    ∃ c pdf ts ed, q.proposal_versions = p.proposal_versions ++
      [⟨c, pdf, nextVersionNumber p.proposal_versions, ts, ed⟩] := by
  cases op with
  | submitForReview ts =>
      left
      simp only [applyOp] at h
      split at h
      · simp only [Except.ok.injEq] at h; subst h; rfl
      · exact absurd h (by simp)
  | recordDecision u d ts c =>
      left
      simp only [applyOp] at h
      split at h
      · simp only [Except.ok.injEq] at h; subst h; rfl
      · exact absurd h (by simp)
  | addVersion c pdf ts ed =>
      right
      simp only [applyOp, Except.ok.injEq] at h
      subst h
      exact ⟨c, pdf, ts, ed, rfl⟩
  | send ts =>
      left
      simp only [applyOp] at h
      split at h
      · simp only [Except.ok.injEq] at h; subst h; rfl
      · exact absurd h (by simp)

/-- Case analysis of a step that lands in `sent`: either the status was
already `sent` and the version list only grew, or the step was the send
itself, guarded by `approved` and a rendered version. -/
lemma step_to_sent (p q : Proposal) (h : StepRel p q)
    (hq : q.current_status = .sent) :
    (p.current_status = .sent ∧
      ∃ l, q.proposal_versions = p.proposal_versions ++ l) ∨
    (p.current_status = .approved ∧ hasRenderedVersion p = true ∧
      q.proposal_versions = p.proposal_versions) := by
  obtain ⟨op, hop⟩ := h
  cases op with
  | submitForReview ts =>
      simp only [applyOp] at hop
      split at hop
      · simp only [Except.ok.injEq] at hop; subst hop; simp at hq
      · exact absurd hop (by simp)
  | recordDecision u d ts c =>
      simp only [applyOp] at hop
      split at hop
      · simp only [Except.ok.injEq] at hop; subst hop
        cases d <;> simp [decisionTarget] at hq
      · exact absurd hop (by simp)
  | addVersion c pdf ts ed =>
      left
      simp only [applyOp, Except.ok.injEq] at hop
      subst hop
      exact ⟨hq, ⟨_, rfl⟩⟩
  | send ts =>
      right
      simp only [applyOp] at hop
      split at hop
      · rename_i hcond
        simp only [Except.ok.injEq] at hop; subst hop
        exact ⟨hcond.1, hcond.2, rfl⟩
      · exact absurd hop (by simp)

/-! ## Claim theorems -/

/-- C9: the simulated chat response is deterministic with a fixed keyword
priority — an input containing "hello" or "hi" (lowercased) always gets the
greeting; otherwise "help" beats "feature"/"can you", which beat
"translate"; with no keyword the fixed default response is returned. -/
theorem chat_response_priority (content : String) :
    ((jsIncludes (jsToLower content) "hello" ||
        jsIncludes (jsToLower content) "hi") = true →
      responseFor content = greetingResponse) ∧
    ((jsIncludes (jsToLower content) "hello" ||
        jsIncludes (jsToLower content) "hi") = false →
      jsIncludes (jsToLower content) "help" = true →
      responseFor content = helpResponse) ∧
    ((jsIncludes (jsToLower content) "hello" ||
        jsIncludes (jsToLower content) "hi") = false →
      jsIncludes (jsToLower content) "help" = false →
      (jsIncludes (jsToLower content) "feature" ||
        jsIncludes (jsToLower content) "can you") = true →
      responseFor content = featureResponse) ∧
    ((jsIncludes (jsToLower content) "hello" ||
        jsIncludes (jsToLower content) "hi") = false →
      jsIncludes (jsToLower content) "help" = false →
      (jsIncludes (jsToLower content) "feature" ||
        jsIncludes (jsToLower content) "can you") = false →
      jsIncludes (jsToLower content) "translate" = true →
      responseFor content = translateResponse) ∧
    ((jsIncludes (jsToLower content) "hello" ||
        jsIncludes (jsToLower content) "hi") = false →
      jsIncludes (jsToLower content) "help" = false →
      (jsIncludes (jsToLower content) "feature" ||
        jsIncludes (jsToLower content) "can you") = false →
      jsIncludes (jsToLower content) "translate" = false →
      responseFor content = defaultResponse) := by
  refine ⟨?_, ?_, ?_, ?_, ?_⟩
  · intro h1; simp [responseFor, h1]
  · intro h1 h2; simp [responseFor, h1, h2]
  · intro h1 h2 h3; simp [responseFor, h1, h2, h3]
  · intro h1 h2 h3 h4; simp [responseFor, h1, h2, h3, h4]
  · intro h1 h2 h3 h4; simp [responseFor, h1, h2, h3, h4]

/-- Witness for C9: the input "Hi, can you help me translate?" contains
"hi", so the greeting wins over "help", "can you" and "translate". -/
theorem chat_response_priority_witness :
    responseFor "Hi, can you help me translate?" = greetingResponse :=
  (chat_response_priority "Hi, can you help me translate?").1 (by decide)

/-- C10: `handleSendMessage` leaves the message list unchanged on
empty/whitespace-only input; otherwise it appends exactly the user message
followed by one assistant message, leaving every pre-existing message
intact in content and position. -/
theorem handleSendMessage_frame (messages : List MessageType)
    (content : String) (now : Nat) (ts : String) :
    (jsTrim content = "" →
      handleSendMessage messages content now ts = messages) ∧
    (jsTrim content ≠ "" →
      handleSendMessage messages content now ts =
        messages ++ [⟨toString now, content, "user", ts⟩,
          ⟨toString (now + 1), responseFor content, "assistant", ts⟩]) := by
  constructor
  · intro h; simp [handleSendMessage, h]
  · intro h; simp [handleSendMessage, h]

/-- Witness for C10: sending "hello" from an empty list appends the user
message and the greeting reply. -/
theorem handleSendMessage_frame_witness :
    handleSendMessage [] "hello" 5 "t0" =
      [] ++ [⟨toString 5, "hello", "user", "t0"⟩,
        ⟨toString (5 + 1), responseFor "hello", "assistant", "t0"⟩] :=
  (handleSendMessage_frame [] "hello" 5 "t0").2 (by decide)

/-- C4: two approval decisions racing on the same `under_review` proposal,
both reading the status before either writes: the first compare-and-swap
succeeds and installs the winner's target status, the second receives a
`conflict` error rather than silently overwriting. -/
theorem concurrent_decisions_conflict (d1 d2 : Decision) :
    raceApprovals .under_review d1 d2 =
      (.ok (decisionTarget d1), .error .conflict) := by
  cases d1 <;> cases d2 <;> rfl

/-- C5: the extraction step marks the email `failed` with an error-log
entry and creates no proposal when `extract` fails; on success it marks the
email `completed` and appends exactly one new draft proposal whose version
list is version 1 built from the template over the extracted fields. -/
theorem processEmail_contract
    (extract : String → Except String ExtractedData) (e : Email)
    (ps : List Proposal) (ts : Nat) :
    (∀ err, extract e.body = .error err →
      processEmail extract e ps ts =
        ({ e with processing_status := .failed, error_log := some err }, ps)) ∧
    (∀ d, extract e.body = .ok d →
      (processEmail extract e ps ts).1 =
        { e with processing_status := .completed } ∧
      (processEmail extract e ps ts).2 = ps ++ [newProposal e d ts] ∧
      (newProposal e d ts).current_status = .draft ∧
      (newProposal e d ts).proposal_versions =
        [⟨renderTemplate d, none, 1, ts, none⟩]) := by
  constructor
  · intro err h; simp [processEmail, h]
  · intro d h
    refine ⟨?_, ?_, rfl, rfl⟩
    · simp [processEmail, h]
    · simp [processEmail, h]

/-- Witness for C5: the section 8 scenario — the email body "We need a
website redesign by June" extracts successfully, so the email completes and
one draft proposal with version 1 appears. -/
theorem processEmail_contract_witness :
    (processEmail sampleExtract sampleEmail [] 7).1 =
      { sampleEmail with processing_status := .completed } ∧
    (processEmail sampleExtract sampleEmail [] 7).2 =
      [] ++ [newProposal sampleEmail sampleData 7] ∧
    (newProposal sampleEmail sampleData 7).current_status = .draft :=
  let h := (processEmail_contract sampleExtract sampleEmail [] 7).2
    sampleData rfl
  ⟨h.1, h.2.1, h.2.2.1⟩

/-- C6: a `SentCommunication` starts `queued` with zero retries; each
delivery failure below the ceiling increments `retries` and keeps the
record `queued`; reaching the ceiling makes it `failed`, after which no
attempt changes it; and a failed delivery leaves an `approved` proposal
`approved` (never `sent`). -/
theorem delivery_retry_contract (ceiling : Nat) (pid : String)
    (rcpts : List String) (c : SentCommunication) (err : String)
    (p : Proposal) (ts : Nat) :
    (initialComm pid rcpts).delivery_status =
      ⟨.queued, none, 0⟩ ∧
    (c.delivery_status.status = .queued →
      c.delivery_status.retries + 1 < ceiling →
      recordAttempt ceiling c (some err) =
        { c with delivery_status :=
            ⟨.queued, some err, c.delivery_status.retries + 1⟩ }) ∧
    (c.delivery_status.status = .queued →
      ceiling ≤ c.delivery_status.retries + 1 →
      recordAttempt ceiling c (some err) =
        { c with delivery_status :=
            ⟨.failed, some err, c.delivery_status.retries + 1⟩ }) ∧
    (∀ o, c.delivery_status.status = .failed →
      recordAttempt ceiling c o = c) ∧
    (c.delivery_status.status = .failed → p.current_status = .approved →
      finalizeSend p c ts = p ∧
        (finalizeSend p c ts).current_status = .approved) := by
  refine ⟨rfl, ?_, ?_, ?_, ?_⟩
  · intro hq hlt
    simp only [recordAttempt, hq]
    simp [hlt]
  · intro hq hge
    simp only [recordAttempt, hq]
    have : ¬ (c.delivery_status.retries + 1 < ceiling) := by omega
    simp [this]
  · intro o hf
    simp [recordAttempt, hf]
  · intro hf hap
    have hfin : finalizeSend p c ts = p := by
      simp [finalizeSend, hf]
    exact ⟨hfin, by rw [hfin]; exact hap⟩

/-- Witness for C6: ceiling 1, a queued fresh record, one failure reaches
the ceiling and the record becomes `failed` with one retry. -/
theorem delivery_retry_contract_witness :
    recordAttempt 1 (initialComm "p1" ["client@example.com"]) (some "smtp down") =
      { initialComm "p1" ["client@example.com"] with delivery_status :=
          ⟨.failed, some "smtp down", 1⟩ } :=
  ((delivery_retry_contract 1 "p1" ["client@example.com"]
      (initialComm "p1" ["client@example.com"]) "smtp down"
      approvedProposal 9).2.2.1) rfl (by omega)

/-- C7: recording a decision on an `under_review` proposal appends exactly
one approval-history entry, and a `requested_changes` decision returns the
status to `draft`, not `approved` or `rejected`. -/
theorem decision_appends_one_entry (p q : Proposal) (u : String)
    (d : Decision) (ts : Nat) (c : Option String)
    (hp : p.current_status = .under_review)
    (h : applyOp (.recordDecision u d ts c) p = .ok q) :
    q.approval_history = p.approval_history ++ [⟨u, d, ts, c⟩] ∧
    (d = .requested_changes →
      q.current_status = .draft ∧ q.current_status ≠ .approved ∧
        q.current_status ≠ .rejected) := by
  simp only [applyOp, hp, if_pos, Except.ok.injEq] at h
  subst h
  refine ⟨rfl, ?_⟩
  rintro rfl
  refine ⟨rfl, ?_, ?_⟩ <;> simp [decisionTarget]

/-- The state of `reviewProposal` after a `requested_changes` decision. -/
def changedProposal : Proposal :=
  ⟨"e1", sampleData, [⟨"v1", some "out.pdf", 1, 1, none⟩], .draft,
    [⟨"u2", .requested_changes, 5, some "tighten scope"⟩], ⟨0, 5, none⟩⟩

/-- Witness for C7: a `requested_changes` decision on the sample
under-review proposal appends its entry and returns the proposal to
`draft`. -/
theorem decision_appends_one_entry_witness :
    changedProposal.approval_history =
      reviewProposal.approval_history ++
        [⟨"u2", .requested_changes, 5, some "tighten scope"⟩] :=
  (decision_appends_one_entry reviewProposal changedProposal "u2"
    .requested_changes 5 (some "tighten scope") rfl rfl).1

/-- C1: a store-level transition request succeeds exactly along the four
section 4.1 edges; an attempt from any other source state returns the
store untouched (status, versions and approval history included) together
with an `invalidTransition` error naming the current and requested
states. -/
theorem transition_edges_exact (s : Store) (pid : String) (p : Proposal)
    (target : Status) (ts : Nat)
    (h : lookupProposal s pid = some p) :
    ((storeRequestTransition s pid target ts).2 = none ↔
      allowedEdge p.current_status target = true) ∧
    (allowedEdge p.current_status target = true ↔
      ((p.current_status = .draft ∧ target = .under_review) ∨
       (p.current_status = .under_review ∧ target = .approved) ∨
       (p.current_status = .under_review ∧ target = .rejected) ∨
       (p.current_status = .approved ∧ target = .sent))) ∧
    (allowedEdge p.current_status target = false →
      storeRequestTransition s pid target ts =
        (s, some (.invalidTransition p.current_status target))) := by
  refine ⟨?_, ?_, ?_⟩
  · simp only [storeRequestTransition, h]
    split
    · rename_i hedge; simp [hedge]
    · rename_i hedge; simp [hedge]
  · generalize p.current_status = a
    cases a <;> cases target <;> decide
  · intro hedge
    simp [storeRequestTransition, h, hedge]

/-- Witness for C1: asking the draft sample proposal to go straight to
`sent` is refused with `invalidTransition draft sent` and the store is
unchanged. -/
theorem transition_edges_exact_witness :
    storeRequestTransition [("p1", versionedProposal)] "p1" .sent 9 =
      ([("p1", versionedProposal)],
        some (.invalidTransition versionedProposal.current_status .sent)) :=
  (transition_edges_exact [("p1", versionedProposal)] "p1"
    versionedProposal .sent 9 rfl).2.2 rfl

/-- C8: `current_status` ranges over exactly the five declared values, and
every successful lifecycle operation yields a status in that set. -/
theorem status_values_closed :
    (∀ s : Status, s = .draft ∨ s = .under_review ∨ s = .approved ∨
      s = .rejected ∨ s = .sent) ∧
    (∀ op p q, applyOp op p = .ok q →
      (q.current_status = .draft ∨ q.current_status = .under_review ∨
        q.current_status = .approved ∨ q.current_status = .rejected ∨
        q.current_status = .sent)) := by
  constructor
  · intro s; cases s <;> simp
  · intro op p q _; cases hq : q.current_status <;> simp

/-- Witness for C8: submitting the sample draft for review lands in the
declared status set. -/
theorem status_values_closed_witness :
    reviewProposal.current_status = .draft ∨
    reviewProposal.current_status = .under_review ∨
    reviewProposal.current_status = .approved ∨
    reviewProposal.current_status = .rejected ∨
    reviewProposal.current_status = .sent :=
  status_values_closed.2 (.submitForReview 2) versionedProposal
    reviewProposal rfl

/-- C2: any reachable proposal whose status is `sent` passed through a
state with status `approved`, and its version list is non-empty with at
least one version carrying a rendered (pdf) file. -/
theorem sent_requires_approval_and_version (p0 p : Proposal)
    (h0 : InitialProposal p0) (hr : Reachable p0 p)
    (hs : p.current_status = .sent) :
    (∃ q, Reachable p0 q ∧ Reachable q p ∧ q.current_status = .approved) ∧
    p.proposal_versions ≠ [] ∧
    (∃ v ∈ p.proposal_versions, v.pdf_path.isSome = true) := by
  revert hs
  induction hr with
  | refl =>
      intro hs
      rw [h0.1] at hs
      simp at hs
  | @tail b c hr' hstep ih =>
      intro hs
      rcases step_to_sent _ _ hstep hs with ⟨hbs, l, hl⟩ | ⟨hap, hrend, hveq⟩
      · obtain ⟨⟨q, hq1, hq2, hq3⟩, hne, v, hv, hvp⟩ := ih hbs
        refine ⟨⟨q, hq1, hq2.tail hstep, hq3⟩, ?_, ⟨v, ?_, hvp⟩⟩
        · rw [hl]
          intro hco
          exact hne (List.append_eq_nil.mp hco).1
        · rw [hl]; exact List.mem_append_left _ hv
      · simp only [hasRenderedVersion, List.any_eq_true] at hrend
        obtain ⟨v, hv, hvp⟩ := hrend
        exact ⟨⟨b, hr', Relation.ReflTransGen.single hstep, hap⟩,
          by rw [hveq]; exact List.ne_nil_of_mem hv,
          ⟨v, by rw [hveq]; exact hv, hvp⟩⟩

/-- Witness for C2: the concrete lifecycle create, add rendered version,
submit, approve, send reaches `sent` with a non-empty version list and a
prior `approved` state. -/
theorem sent_requires_approval_and_version_witness :
    sentProposal.proposal_versions ≠ [] ∧
    (∃ q, Reachable emptyProposal q ∧ Reachable q sentProposal ∧
      q.current_status = .approved) :=
  let s1 : StepRel emptyProposal versionedProposal :=
    ⟨.addVersion "v1" (some "out.pdf") 1 none, rfl⟩
  let s2 : StepRel versionedProposal reviewProposal :=
    ⟨.submitForReview 2, rfl⟩
  let s3 : StepRel reviewProposal approvedProposal :=
    ⟨.recordDecision "u1" .approved 3 none, rfl⟩
  let s4 : StepRel approvedProposal sentProposal := ⟨.send 4, rfl⟩
  let hr : Reachable emptyProposal sentProposal :=
    (((Relation.ReflTransGen.refl.tail s1).tail s2).tail s3).tail s4
  let h := sent_requires_approval_and_version emptyProposal sentProposal
    ⟨rfl, rfl, rfl⟩ hr rfl
  ⟨h.2.1, h.1⟩

/-- C3: appending is the only mutation of `proposal_versions` — every
successful operation leaves the list unchanged or appends one version
numbered `1 + max existing` (0 if empty) — and on every reachable
proposal the version numbers are exactly `1, …, n`: strictly increasing
from 1 with no gaps. -/
theorem version_numbers_contiguous (p0 p : Proposal)
    (h0 : InitialProposal p0) (hr : Reachable p0 p) :
    (∀ op q, applyOp op p = .ok q →
      q.proposal_versions = p.proposal_versions ∨
      ∃ c pdf ts ed, q.proposal_versions = p.proposal_versions ++
        [⟨c, pdf, nextVersionNumber p.proposal_versions, ts, ed⟩]) ∧
    p.proposal_versions.map (·.version) =
      List.range' 1 p.proposal_versions.length := by
  refine ⟨fun op q h => applyOp_versions op p q h, ?_⟩
  induction hr with
  | refl => rw [h0.2.1]; rfl
  | @tail b c hr' hstep ih =>
      obtain ⟨op, hop⟩ := hstep
      rcases applyOp_versions op b c hop with heq | ⟨cc, pdf, ts, ed, heq⟩
      · rw [heq]; exact ih
      · rw [heq]
        simp only [List.map_append, List.length_append, List.map_cons,
          List.map_nil, List.length_cons, List.length_nil]
        rw [ih]
        have hnext : nextVersionNumber b.proposal_versions =
            1 + b.proposal_versions.length := by
          unfold nextVersionNumber
          rw [ih, foldr_max_range']
        rw [hnext, ← List.range'_1_concat]

/-- Witness for C3: after appending one version to a fresh proposal the
version numbers are exactly `[1]`. -/
theorem version_numbers_contiguous_witness :
    versionedProposal.proposal_versions.map (·.version) =
      List.range' 1 versionedProposal.proposal_versions.length :=
  let s1 : StepRel emptyProposal versionedProposal :=
    ⟨.addVersion "v1" (some "out.pdf") 1 none, rfl⟩
  (version_numbers_contiguous emptyProposal versionedProposal
    ⟨rfl, rfl, rfl⟩ (Relation.ReflTransGen.refl.tail s1)).2

end BotMail
